import Mathlib

/-!
Shallow embedding of the dependency-confusion triage pipeline of this
repository (`src/LLM_Triager.py` and `src/Triager.py`): search command
construction, search-output parsing, evidence normalization
(strip / dedup / truncate), the remote-classification retry loop, the
per-candidate result aggregation of `main`, and the report summary counts.

External effects are modelled by explicit inputs: the HTTP layer as a
stream of per-attempt responses, the JSON parse applied to the remote
reply as an abstract partial function, and `os.path.relpath` as an
abstract path rewrite.  Python strings are modelled as `String` or as
their code-point lists (`List Char`).
-/

set_option maxRecDepth 16384

/-- A result record / CSV report row with the five fields written by
`LLM_Triager.main` (`fieldnames = ['package_name', 'package_type',
'classification', 'justification', 'highest_risk_context']`).  The
`classification` field stores whatever string the remote service
returned, unvalidated. -/
structure Row where
  package_name : String
  package_type : String
  classification : String
  justification : String
  highest_risk_context : String
deriving DecidableEq

/-- Python `str.strip()` whitespace test (ASCII whitespace: space, tab,
newline, carriage return, vertical tab, form feed). -/
def isPyWS (c : Char) : Bool :=
  c = ' ' || c = '\t' || c = '\n' || c = '\r' || c = Char.ofNat 11 || c = Char.ofNat 12

/-- Python `str.strip()` on a code-point list: drop leading and trailing
whitespace. -/
def pyStripL (cs : List Char) : List Char :=
  ((cs.dropWhile isPyWS).reverse.dropWhile isPyWS).reverse

/-- Python `str.strip()` on a `String`. -/
def pyStrip (s : String) : String :=
  String.mk (pyStripL s.toList)

/-- The snippet-content truncation of `find_all_context`
(`if len(content) > 300: content = content[:300] + "..."`),
on the code-point list of the content. -/
def truncate300 (cs : List Char) : List Char :=
  if cs.length > 300 then cs.take 300 ++ ("...".toList) else cs

/-- The four counts printed by `print_summary`: total number of report
rows, and the number of rows whose `classification` field is exactly
each of the three labels `'Potential Vulnerability'`, `'False Positive'`,
`'Analysis Failed'`. -/
def summaryCounts (rows : List Row) : Nat × Nat × Nat × Nat :=
  (rows.length,
   (rows.filter (fun r => r.classification == "Potential Vulnerability")).length,
   (rows.filter (fun r => r.classification == "False Positive")).length,
   (rows.filter (fun r => r.classification == "Analysis Failed")).length)

/-- A report row counts toward one of the three printed buckets. -/
def inBucket (r : Row) : Bool :=
  r.classification == "Potential Vulnerability" ||
  r.classification == "False Positive" ||
  r.classification == "Analysis Failed"

/-- The regex `([^:]+):(\d+):(.*)` of `find_all_context`, applied with
`re.match` to one raw search-output line (a code-point list; raw lines
contain no newline, so `.` matches every remaining character).  The
file group is the maximal nonempty colon-free head; the line-number
group is the maximal nonempty digit run after the first colon and must
be followed by a second colon; the content group is everything after
the second colon, verbatim.  Returns the three captured groups, or
`none` when the regex does not match. -/
def parseLineL (cs : List Char) : Option (List Char × List Char × List Char) :=
  match cs.dropWhile (fun c => !(c == ':')) with
  | ':' :: rest =>
    if (cs.takeWhile (fun c => !(c == ':'))).isEmpty then none
    else
      match rest.dropWhile Char.isDigit with
      | ':' :: content =>
        if (rest.takeWhile Char.isDigit).isEmpty then none
        else some (cs.takeWhile (fun c => !(c == ':')), rest.takeWhile Char.isDigit, content)
      | _ => none
  | _ => none

/-- String-level wrapper for `parseLineL`. -/
def parseLine (line : String) : Option (String × String × String) :=
  match parseLineL line.toList with
  | some (f, d, c) => some (String.mk f, String.mk d, String.mk c)
  | none => none

/-- What `find_all_context` does with one raw search-output line:
blank lines are skipped, lines the regex rejects produce a parse
warning, matched lines become a context record. -/
inductive LineOut
  | blank
  | warn
  | ctx (file : String) (line : Nat) (content : String)
deriving DecidableEq

/-- Python `int()` on a nonempty decimal digit string. -/
def natOfDigits (ds : List Char) : Nat :=
  ds.foldl (fun n c => 10 * n + (c.toNat - 48)) 0

/-- Per-line processing of `find_all_context` (LLM_Triager.py lines
180-203): skip blank lines; on a regex match build the context record
with `os.path.relpath` (modelled by the abstract `relpath`) applied to
the file group, `int()` of the line-number group, and the stripped then
truncated content; otherwise print a parse warning and skip. -/
def processLine (relpath : String → String) (line : String) : LineOut :=
  if pyStrip line = "" then .blank
  else
    match parseLine line with
    | some (f, d, c) =>
      .ctx (relpath f) (natOfDigits d.toList) (String.mk (truncate300 (pyStripL c.toList)))
    | none => .warn

/-- Python `in` on a list of strings. -/
def memB (x : String) : List String → Bool
  | [] => false
  | y :: ys => x == y || memB x ys

/-- Insertion-ordered key list of the Python dict comprehension
`{line.strip(): None for line in evidence_lines}` (the argument list is
already stripped): keys in first-insertion order, re-insertions
ignored. -/
def firstSeen : List String → List String → List String
  | [], _ => []
  | x :: xs, seen =>
    if memB x seen then firstSeen xs seen
    else x :: firstSeen xs (x :: seen)

/-- `unique_lines` of the first `analyze_with_llm` (LLM_Triager.py line
48): `list({line.strip(): None for line in evidence_lines}.keys())[:15]`. -/
def unique_lines (evidence_lines : List String) : List String :=
  (firstSeen (evidence_lines.map pyStrip) []).take 15

/-- Reference deduplication: keep each string's first occurrence, in
input order. -/
def eraseFirstDups : List String → List String
  | [] => []
  | x :: xs => x :: eraseFirstDups (xs.filter (fun y => !(y == x)))
termination_by l => l.length
decreasing_by
  simp only [List.length_cons]
  exact Nat.lt_succ_of_le (List.length_filter_le _ _)

/-- A concrete evidence-content list: 17 lines, repeating trimmed
content `"a0"`, 16 distinct trimmed contents overall. -/
def exC7 : List String :=
  ["a0", " a0", "a1", "a2", "a3", "a4", "a5", "a6", "a7", "a8", "a9",
   "a10", "a11", "a12", "a13", "a14", "a15"]

/-- One quoting pass of Python `subprocess.list2cmdline` over the
characters of an argument, carrying the pending-backslash count
(`bs_buf`): backslashes are buffered; before a double quote they are
doubled and the quote itself backslash-escaped; before any other
character they are emitted as-is.  Returns the rendered body and the
count of trailing backslashes. -/
def qchars : List Char → Nat → (List Char × Nat)
  | [], bs => ([], bs)
  | c :: cs, bs =>
    if c = '\\' then qchars cs (bs + 1)
    else if c = '"' then
      ((List.replicate (2 * bs + 1) '\\' ++ '"' :: (qchars cs 0).1), (qchars cs 0).2)
    else
      ((List.replicate bs '\\' ++ c :: (qchars cs 0).1), (qchars cs 0).2)

/-- Python `subprocess.list2cmdline` rendering of one argument:
surrounded by double quotes only when the argument contains a space or
tab or is empty, in which case trailing backslashes are doubled before
the closing quote.  Note these are WINDOWS quoting rules: characters
like `$`, backquote, `;`, `(` are passed through unquoted and
unescaped. -/
def quoteArg (arg : String) : String :=
  let body := (qchars arg.toList 0).1
  let tbs := (qchars arg.toList 0).2
  if arg.toList.contains ' ' || arg.toList.contains '\t' || arg.toList.isEmpty then
    String.mk ('"' :: (body ++ List.replicate (2 * tbs) '\\') ++ ['"'])
  else
    String.mk (body ++ List.replicate tbs '\\')

/-- Python `subprocess.list2cmdline`: arguments rendered independently
and joined with single spaces. -/
def list2cmdline : List String → String
  | [] => ""
  | [a] => quoteArg a
  | a :: rest => quoteArg a ++ " " ++ list2cmdline rest

/-- What `subprocess.run(command, shell=True, ...)` receives from
`run_search`: a single flat command string, handed to the shell. -/
structure ShellExec where
  shell : Bool
  command : String
deriving DecidableEq

/-- The command `run_search` builds (LLM_Triager.py lines 120-151).
Both backends execute ONE STRING with `subprocess.run(command,
shell=True, ...)`: the ripgrep branch renders its argument list through
`subprocess.list2cmdline`; the grep branch interpolates the pattern and
directory into double-quoted shell words directly and pipes through a
`grep -vE` filter. -/
def run_search (pattern search_dir : String)
    (line_numbers case_insensitive fixed_string use_ripgrep : Bool) : ShellExec :=
  let flags := (if line_numbers then "n" else "") ++ (if case_insensitive then "i" else "")
  let mode := if fixed_string then "F" else "E"
  if use_ripgrep then
    { shell := true,
      command := list2cmdline
        ["rg", "-" ++ flags ++ mode, "--no-heading", "--no-ignore",
         "-g", "!llm_analysis_report.csv", "-g", "!.potential",
         pattern, search_dir] }
  else
    { shell := true,
      command := "grep -r" ++ flags ++ mode ++ " \"" ++ pattern ++ "\" \"" ++ search_dir
        ++ "\" | grep -vE \"(llm_analysis_report.csv|\\.potential)\"" }

/-- The `run_search` invocation of `find_all_context` (lines 169-175):
`line_numbers=True, case_insensitive=True, fixed_string=True`. -/
def find_all_context_search (pattern search_dir : String) (use_ripgrep : Bool) : ShellExec :=
  run_search pattern search_dir true true true use_ripgrep

/-- `Triager.run_ripgrep` (Triager.py lines 89-101): a structural
argument list passed to `subprocess.run` WITHOUT a shell; `-F` forces
fixed-string (literal) matching. -/
def run_ripgrep_cmd (pattern : String) (file_types : List String)
    (max_results : Nat) (target_dir : String) : List String :=
  (["rg", "-F", "-n", "--no-heading", "--color=never"]
    ++ (file_types.map (fun t => ["-t", t])).flatten)
    ++ ["--max-count", toString max_results, pattern, target_dir]

/-- POSIX shell scan for an active command substitution: an unescaped
backquote or `$(` outside single quotes.  Double quotes do NOT
deactivate command substitution in a POSIX shell; a backslash escapes
the following character. -/
def cmdSubstScan : List Char → Bool → Bool
  | [], _ => false
  | c :: cs, inSingle =>
    if inSingle then
      if c = Char.ofNat 39 then cmdSubstScan cs false else cmdSubstScan cs true
    else if c = Char.ofNat 39 then cmdSubstScan cs true
    else if c = '\\' then
      match cs with
      | [] => false
      | _ :: cs2 => cmdSubstScan cs2 false
    else if c = Char.ofNat 96 then true
    else if c = '$' then
      match cs with
      | '(' :: _ => true
      | _ => cmdSubstScan cs false
    else cmdSubstScan cs false

/-- Whether a shell command string contains an active command
substitution. -/
def hasActiveCmdSubst (s : String) : Bool := cmdSubstScan s.toList false

/-- One attempt's outcome at the HTTP boundary inside
`analyze_with_llm` (LLM_Triager.py lines 245-262): either
`requests.post` raises a `requests.RequestException` (`exn`), or it
returns a response with a status code and — consulted only on status
200 — the result of `json.loads` on the reply's message content:
`some analysis` when the content parses as a JSON object (restricted to
its report-visible fields), `none` when it does not (in the code,
`json.loads` then raises `JSONDecodeError`, which the
`except requests.RequestException` clause does not catch). -/
inductive ApiResponse
  | resp (code : Nat) (parsed : Option Row)
  | exn

/-- An observable step of the retry loop: one network call, or one
`time.sleep(wait)` with its duration in seconds. -/
inductive Event
  | call
  | sleep (seconds : Nat)
deriving DecidableEq

/-- How the retry loop of `analyze_with_llm` ends: `return analysis`
(success), `return None` on a 4xx status (`clientError`), an uncaught
`JSONDecodeError` propagating out (`raised`), or falling off the loop
and returning `None` (`exhausted`). -/
inductive LoopRes
  | success (a : Row)
  | clientError
  | raised
  | exhausted
deriving DecidableEq

/-- `analysis['package_type'] = package_type` before `return analysis`. -/
def setPT (a : Row) (package_type : String) : Row :=
  { a with package_type := package_type }

/-- The retry loop `for attempt in range(max_retries)` of
`analyze_with_llm`, driven by the per-attempt outcomes `api` over the
list of remaining attempt indices: status 200 with parseable content
returns the analysis; status 200 with unparseable content raises; a 4xx
status returns `None` at once; any other status or a request exception
falls through to `time.sleep(2 ** attempt)` and the next attempt; an
empty list means the loop fell through (`return None`).  Returns the
loop result and the trace of network calls and sleeps. -/
def analyzeLoop (api : Nat → ApiResponse) (package_type : String) :
    List Nat → LoopRes × List Event
  | [] => (.exhausted, [])
  | attempt :: more =>
    match api attempt with
    | .resp code parsed =>
      if code = 200 then
        match parsed with
        | some a => (.success (setPT a package_type), [.call])
        | none => (.raised, [.call])
      else if 400 ≤ code ∧ code < 500 then (.clientError, [.call])
      else
        ((analyzeLoop api package_type more).1,
         .call :: .sleep (2 ^ attempt) :: (analyzeLoop api package_type more).2)
    | .exn =>
      ((analyzeLoop api package_type more).1,
       .call :: .sleep (2 ^ attempt) :: (analyzeLoop api package_type more).2)

/-- `analyze_with_llm(package_name, package_type, home_org,
context_list)` with the default `max_retries = 3` (so
`range(max_retries)` is the attempt list `[0, 1, 2]`), at the level of
its retry behaviour. -/
def analyze_with_llm (api : Nat → ApiResponse) (package_type : String) :
    LoopRes × List Event :=
  analyzeLoop api package_type [0, 1, 2]

/-- The outcomes the loop retries after a sleep: a request exception, or
a status code that is neither 200 nor in [400, 500). -/
def isTransient : ApiResponse → Bool
  | .exn => true
  | .resp code _ =>
    if code = 200 then false else if 400 ≤ code ∧ code < 500 then false else true

/-- Number of network calls in a trace. -/
def callCount : List Event → Nat
  | [] => 0
  | .call :: es => callCount es + 1
  | .sleep _ :: es => callCount es

/-- An API that always answers 200 with a body whose message content is
not valid JSON. -/
def apiBadParse : Nat → ApiResponse := fun _ => ApiResponse.resp 200 none

/-- An API that raises a request exception once, then succeeds. -/
def rowOkC4 : Row := ⟨"left-pad", "generic", "False Positive", "benign", "N/A"⟩

def apiW : Nat → ApiResponse :=
  fun n => if n = 0 then ApiResponse.exn else ApiResponse.resp 200 (some rowOkC4)

/-- An API that always answers HTTP 500. -/
def api5xx : Nat → ApiResponse := fun _ => ApiResponse.resp 500 none

def lbrace : Char := Char.ofNat 123

def rbrace : Char := Char.ofNat 125

/-- Split a list at the LAST occurrence of `c`: the part before it and
the part after it. -/
def splitAtLast (c : Char) : List Char → Option (List Char × List Char)
  | [] => none
  | x :: xs =>
    match splitAtLast c xs with
    | some (b, a) => some (x :: b, a)
    | none => if x = c then some ([], xs) else none

/-- The greedy DOTALL brace-block search used by the fallback of
`Triager.analyze_with_llm` (`re.search` of an opening brace, any
characters, a closing brace): the leftmost-starting match runs from the
first opening brace that has a closing brace after it through the LAST
closing brace of the text. -/
def braceBlockL : List Char → Option (List Char)
  | [] => none
  | c :: cs =>
    if c = lbrace then
      match splitAtLast rbrace cs with
      | some (body, _) => some (lbrace :: body ++ [rbrace])
      | none => braceBlockL cs
    else braceBlockL cs

/-- String-level wrapper for `braceBlockL`. -/
def braceBlock (s : String) : Option String :=
  match braceBlockL s.toList with
  | some b => some (String.mk b)
  | none => none

/-- Response handling of `Triager.analyze_with_llm` (Triager.py lines
301-326), with the JSON-object parse of the library modelled by the
abstract partial function `parse`: on direct parse success the analysis
is returned; on a decode error a SINGLE fallback extracts the embedded
brace block and parses that, marking `parse_warning` (the `Bool`); if
that also fails the function returns `None`.  This file has no retry
loop: one attempt per candidate. -/
def triager_analyze (parse : String → Option Row) (text : String) : Option (Row × Bool) :=
  match parse text with
  | some a => some (a, false)
  | none =>
    match braceBlock text with
    | some b =>
      match parse b with
      | some a => some (a, true)
      | none => none
    | none => none

def rowC3 : Row := ⟨"pkg", "pip", "False Positive", "ok", "N/A"⟩

def blockC3 : String := String.mk (lbrace :: 'A' :: [rbrace])

def textC3 : String := "noise " ++ blockC3 ++ " tail"

def parseC3 : String → Option Row :=
  fun s => if s = blockC3 then some rowC3 else none

/-- One candidate of the main loop: the name read from a `.potential`
file (ANSI escapes already stripped by the external reader), the
package type derived from the file name, and the per-attempt API
outcomes its classification call will see. -/
structure Cand where
  name : String
  ptype : String
  api : Nat → ApiResponse

/-- How the `analysis = analyze_with_llm(...)` call of `main` ends for
one candidate: a returned analysis (`ok`), a returned `None`
(`failed`), or an uncaught exception (`raised`). -/
inductive AnalyzeOutcome
  | ok (a : Row)
  | failed
  | raised
deriving DecidableEq

def outcomeOf (c : Cand) : AnalyzeOutcome :=
  match (analyze_with_llm c.api c.ptype).1 with
  | .success a => .ok a
  | .clientError => .failed
  | .exhausted => .failed
  | .raised => .raised

/-- The sentinel record `main` appends when `analyze_with_llm` returns
`None` (LLM_Triager.py lines 370-376). -/
def failedRecord (name ptype : String) : Row :=
  ⟨name, ptype, "Analysis Failed", "API call failed after retries.", "N/A"⟩

/-- The record a candidate contributes when its processing completes
without an uncaught exception. -/
def recordOf (c : Cand) : Row :=
  match outcomeOf c with
  | .ok a => a
  | _ => failedRecord c.name c.ptype

/-- The per-file candidate loop of `main` (LLM_Triager.py lines
359-377), which runs inside the per-file `try`: each candidate appends
exactly one record — the returned analysis or the sentinel — unless its
classification call raises, in which case the `except` clause at FILE
level catches the exception and the file's remaining candidates are
never processed. -/
def runFile : List Cand → List Row
  | [] => []
  | c :: rest =>
    match outcomeOf c with
    | .ok a => a :: runFile rest
    | .failed => failedRecord c.name c.ptype :: runFile rest
    | .raised => []

/-- The whole loop of `main` over the `.potential` files: the in-memory
`results` list accumulated across all files (a failed file never stops
later files). -/
def runAll (files : List (List Cand)) : List Row :=
  (files.map runFile).flatten

def rowB : Row := ⟨"b", "npm", "False Positive", "benign", "N/A"⟩

def candRaise : Cand := ⟨"a", "npm", fun _ => ApiResponse.resp 200 none⟩

def candOk : Cand := ⟨"b", "npm", fun _ => ApiResponse.resp 200 (some rowB)⟩

/-- Base name of a path (last `/`-separated component). -/
def basenameL : List Char → List Char → List Char
  | [], acc => acc.reverse
  | c :: cs, acc => if c = '/' then basenameL cs [] else basenameL cs (c :: acc)

def basename (path : String) : String := String.mk (basenameL path.toList [])

/-- ripgrep `-g` exclusion of `run_search`: the two globs
`!llm_analysis_report.csv` and `!.potential` contain no wildcard and no
separator, so each matches exactly the files whose BASE NAME equals the
glob text. -/
def rgExcluded (path : String) : Bool :=
  basename path == "llm_analysis_report.csv" || basename path == ".potential"

/-- The regex alternative `llm_analysis_report.csv` of the grep branch's
`grep -vE` filter: its dot is unescaped, hence a wildcard. -/
def patCsv : List (Option Char) :=
  "llm_analysis_report".toList.map some ++ [none] ++ "csv".toList.map some

/-- The regex alternative `\.potential`: a literal string. -/
def patPotential : List (Option Char) := ".potential".toList.map some

/-- Match a wildcard pattern (`none` = any character) at the head. -/
def matchesAt : List (Option Char) → List Char → Bool
  | [], _ => true
  | _ :: _, [] => false
  | p :: ps, c :: cs =>
    match p with
    | none => matchesAt ps cs
    | some pc => pc == c && matchesAt ps cs

/-- Does the pattern match anywhere in the text? -/
def containsPat (pat : List (Option Char)) : List Char → Bool
  | [] => pat.isEmpty
  | c :: cs => matchesAt pat (c :: cs) || containsPat pat cs

def toLowerL (cs : List Char) : List Char := cs.map Char.toLower

/-- Case-insensitive fixed-string line match (the `-iF` flags both
backends receive from `find_all_context`). -/
def lineMatches (pattern line : String) : Bool :=
  containsPat ((toLowerL pattern.toList).map some) (toLowerL line.toList)

/-- A file of the searched tree: path and lines. -/
structure SrcFile where
  path : String
  lines : List String

/-- The `path:lineno:content` output lines a search backend prints for
the matching lines of one file. -/
def fileMatchLines (pattern : String) (f : SrcFile) : List String :=
  (f.lines.enum.filter (fun p => lineMatches pattern p.2)).map
    (fun p => f.path ++ ":" ++ toString (p.1 + 1) ++ ":" ++ p.2)

/-- Output of the ripgrep backend command built by `run_search`: files
matching either `-g !` glob are not searched at all; every matching
line of the remaining files is printed. -/
def rgBackendLines (files : List SrcFile) (pattern : String) : List String :=
  ((files.filter (fun f => !(rgExcluded f.path))).map (fileMatchLines pattern)).flatten

/-- Output of the grep backend command built by `run_search`: `grep -r`
searches EVERY file, then the pipe `grep -vE
"(llm_analysis_report.csv|\.potential)"` drops every output line on
which either alternative matches. -/
def grepBackendLines (files : List SrcFile) (pattern : String) : List String :=
  ((files.map (fileMatchLines pattern)).flatten).filter
    (fun line => !(containsPat patCsv line.toList || containsPat patPotential line.toList))

/-- A concrete searched tree: the run's own report CSV, a raw
candidate-list file `npm.potential`, and a real source file, all
mentioning the candidate name. -/
def exTree : List SrcFile :=
  [⟨"proj/llm_analysis_report.csv", ["acme-pkg,npm,stuff"]⟩,
   ⟨"proj/DEP/npm.potential", ["acme-pkg"]⟩,
   ⟨"proj/src/app.js", ["import acme-pkg"]⟩]

theorem string_mk_append (a b : List Char) :
    String.mk a ++ String.mk b = String.mk (a ++ b) := rfl

theorem string_mk_toList (s : String) : String.mk s.toList = s := rfl

theorem parseLineL_recon (cs f d c : List Char) (h : parseLineL cs = some (f, d, c)) :
    f ++ ':' :: (d ++ ':' :: c) = cs := by
  unfold parseLineL at h
  split at h
  case _ rest h1 =>
    split at h
    · exact absurd h (by simp)
    · split at h
      case _ content h2 =>
        split at h
        · exact absurd h (by simp)
        · rename_i hd
          injection h with h
          injection h with hf h
          injection h with hdg hc
          subst hf; subst hdg; subst hc
          have e1 := List.takeWhile_append_dropWhile (p := fun c => !(c == ':')) (l := cs)
          have e2 := List.takeWhile_append_dropWhile (p := Char.isDigit) (l := rest)
          rw [h1] at e1
          rw [h2] at e2
          conv_rhs => rw [← e1, ← e2]
      · exact absurd h (by simp)
  · exact absurd h (by simp)

theorem firstSeen_eq_eraseFirstDups :
    ∀ (l seen : List String),
      firstSeen l seen = eraseFirstDups (l.filter (fun y => !(memB y seen))) := by
  intro l
  induction l with
  | nil => intro seen; simp [firstSeen, eraseFirstDups]
  | cons x xs ih =>
    intro seen
    by_cases hx : memB x seen
    · rw [show firstSeen (x :: xs) seen = firstSeen xs seen by simp [firstSeen, hx]]
      rw [show (x :: xs).filter (fun y => !(memB y seen)) = xs.filter (fun y => !(memB y seen)) by
        simp [List.filter_cons, hx]]
      exact ih seen
    · rw [show firstSeen (x :: xs) seen = x :: firstSeen xs (x :: seen) by simp [firstSeen, hx]]
      rw [show (x :: xs).filter (fun y => !(memB y seen))
            = x :: xs.filter (fun y => !(memB y seen)) by simp [List.filter_cons, hx]]
      rw [eraseFirstDups]
      rw [ih (x :: seen)]
      congr 1
      rw [List.filter_filter]
      apply congrArg eraseFirstDups
      apply List.filter_congr
      intro a _
      simp only [memB, Bool.not_or]

theorem mem_of_mem_eraseFirstDups :
    ∀ (n : Nat) (l : List String), l.length ≤ n → ∀ a ∈ eraseFirstDups l, a ∈ l := by
  intro n
  induction n with
  | zero =>
    intro l hl a ha
    cases l with
    | nil => simp [eraseFirstDups] at ha
    | cons x xs => simp at hl
  | succ n ih =>
    intro l hl a ha
    cases l with
    | nil => simp [eraseFirstDups] at ha
    | cons x xs =>
      rw [eraseFirstDups] at ha
      rcases List.mem_cons.mp ha with h | h
      · exact h ▸ List.mem_cons_self x xs
      · have hlen : (xs.filter (fun y => !(y == x))).length ≤ n := by
          have := List.length_filter_le (fun y => !(y == x)) xs
          simp only [List.length_cons] at hl
          omega
        exact List.mem_cons_of_mem _ (List.mem_of_mem_filter (ih _ hlen a h))

theorem eraseFirstDups_nodup :
    ∀ (n : Nat) (l : List String), l.length ≤ n → (eraseFirstDups l).Nodup := by
  intro n
  induction n with
  | zero =>
    intro l hl
    cases l with
    | nil => simp [eraseFirstDups]
    | cons x xs => simp at hl
  | succ n ih =>
    intro l hl
    cases l with
    | nil => simp [eraseFirstDups]
    | cons x xs =>
      rw [eraseFirstDups]
      refine List.nodup_cons.mpr ⟨?_, ?_⟩
      · intro hx
        have hmem := mem_of_mem_eraseFirstDups (xs.filter (fun y => !(y == x))).length _
          le_rfl x hx
        have := List.of_mem_filter hmem
        simp at this
      · apply ih
        have := List.length_filter_le (fun y => !(y == x)) xs
        simp only [List.length_cons] at hl
        omega

theorem bucketSum_eq_countP (rows : List Row) :
    (summaryCounts rows).2.1 + (summaryCounts rows).2.2.1 + (summaryCounts rows).2.2.2
      = rows.countP inBucket := by
  induction rows with
  | nil => rfl
  | cons r t ih =>
    simp only [summaryCounts, List.filter_cons, List.countP_cons] at *
    by_cases h1 : r.classification = "Potential Vulnerability" <;>
    by_cases h2 : r.classification = "False Positive" <;>
    by_cases h3 : r.classification = "Analysis Failed" <;>
      simp_all [inBucket] <;> omega

theorem analyzeLoop_success (api : Nat → ApiResponse) (ptype : String)
    (attempt : Nat) (more : List Nat) (a : Row)
    (h : api attempt = .resp 200 (some a)) :
    analyzeLoop api ptype (attempt :: more) = (.success (setPT a ptype), [.call]) := by
  simp [analyzeLoop, h]

theorem analyzeLoop_badparse (api : Nat → ApiResponse) (ptype : String)
    (attempt : Nat) (more : List Nat) (h : api attempt = .resp 200 none) :
    analyzeLoop api ptype (attempt :: more) = (.raised, [.call]) := by
  simp [analyzeLoop, h]

theorem analyzeLoop_clientError (api : Nat → ApiResponse) (ptype : String)
    (attempt : Nat) (more : List Nat) (code : Nat) (parsed : Option Row)
    (h : api attempt = .resp code parsed) (h4a : 400 ≤ code) (h4b : code < 500) :
    analyzeLoop api ptype (attempt :: more) = (.clientError, [.call]) := by
  have hne : ¬(code = 200) := by omega
  simp [analyzeLoop, h, hne, h4a, h4b]

theorem analyzeLoop_transient (api : Nat → ApiResponse) (ptype : String)
    (attempt : Nat) (more : List Nat) (h : isTransient (api attempt) = true) :
    analyzeLoop api ptype (attempt :: more)
      = ((analyzeLoop api ptype more).1,
         .call :: .sleep (2 ^ attempt) :: (analyzeLoop api ptype more).2) := by
  cases hapi : api attempt with
  | exn => simp [analyzeLoop, hapi]
  | resp code parsed =>
    rw [hapi] at h
    simp only [isTransient] at h
    split_ifs at h with h1 h2
    simp [analyzeLoop, hapi, h1, h2]

theorem callCount_analyzeLoop_le (api : Nat → ApiResponse) (ptype : String) :
    ∀ attempts : List Nat, callCount (analyzeLoop api ptype attempts).2 ≤ attempts.length := by
  intro attempts
  induction attempts with
  | nil => simp [analyzeLoop, callCount]
  | cons attempt more ih =>
    by_cases ht : isTransient (api attempt) = true
    · rw [analyzeLoop_transient api ptype attempt more ht]
      simp only [callCount, List.length_cons]
      omega
    · cases hapi : api attempt with
      | exn => rw [hapi] at ht; simp [isTransient] at ht
      | resp code parsed =>
        rw [hapi] at ht
        simp only [isTransient] at ht
        split_ifs at ht with h1 h2
        · subst h1
          cases parsed with
          | some a =>
            rw [analyzeLoop_success api ptype attempt more a hapi]
            simp only [callCount, List.length_cons]
            omega
          | none =>
            rw [analyzeLoop_badparse api ptype attempt more hapi]
            simp only [callCount, List.length_cons]
            omega
        · rw [analyzeLoop_clientError api ptype attempt more code parsed hapi h2.1 h2.2]
          simp only [callCount, List.length_cons]
          omega
        · simp at ht

theorem runFile_no_raise :
    ∀ cands : List Cand, (∀ c ∈ cands, outcomeOf c ≠ .raised) →
      runFile cands = cands.map recordOf := by
  intro cands
  induction cands with
  | nil => intro _; rfl
  | cons c rest ih =>
    intro h
    have hc := h c (List.mem_cons_self c rest)
    have hrec := ih (fun x hx => h x (List.mem_cons_of_mem c hx))
    cases ho : outcomeOf c with
    | ok a => simp [runFile, ho, recordOf, hrec]
    | failed => simp [runFile, ho, recordOf, hrec]
    | raised => exact absurd ho hc

theorem runFile_raise_drops :
    ∀ (pre : List Cand) (c : Cand) (rest : List Cand),
      (∀ x ∈ pre, outcomeOf x ≠ .raised) → outcomeOf c = .raised →
      runFile (pre ++ c :: rest) = pre.map recordOf := by
  intro pre
  induction pre with
  | nil => intro c rest _ hc; simp [runFile, hc]
  | cons p pre ih =>
    intro c rest h hc
    have hp := h p (List.mem_cons_self p pre)
    have hrec := ih c rest (fun x hx => h x (List.mem_cons_of_mem p hx)) hc
    cases ho : outcomeOf p with
    | ok a => simp [runFile, ho, recordOf, hrec]
    | failed => simp [runFile, ho, recordOf, hrec]
    | raised => exact absurd ho hp

/-- C1 counterexample: in a run past all configuration checks, a
candidate whose 200-status reply fails JSON parsing makes
`analyze_with_llm` raise; `main` catches the exception only per input
file, so the raising candidate `"a"` gets NO result record and the
later candidate `"b"` in the same file is never processed either — the
result list is empty instead of holding two terminal records. -/
theorem c1_batch_resilience_counterexample :
    runAll [[candRaise, candOk]] = [] ∧
    outcomeOf candRaise = .raised ∧
    outcomeOf candOk = .ok rowB ∧
    (runAll [[candRaise, candOk]]).length ≠ 2 := by decide

/-- C1 amended: every candidate whose classification call RETURNS
(with an analysis or with `None`) yields exactly one terminal record,
in order; input files are isolated from each other; but a candidate
whose call raises an uncaught exception yields no record and drops the
remaining candidates of its own input file. -/
theorem c1_batch_resilience_amended :
    (∀ cands : List Cand, (∀ c ∈ cands, outcomeOf c ≠ .raised) →
      runFile cands = cands.map recordOf ∧ (runFile cands).length = cands.length) ∧
    (∀ files1 files2 : List (List Cand),
      runAll (files1 ++ files2) = runAll files1 ++ runAll files2) ∧
    (∀ (pre : List Cand) (c : Cand) (rest : List Cand),
      (∀ x ∈ pre, outcomeOf x ≠ .raised) → outcomeOf c = .raised →
      runFile (pre ++ c :: rest) = pre.map recordOf) := by
  refine ⟨?_, ?_, ?_⟩
  · intro cands h
    refine ⟨runFile_no_raise cands h, ?_⟩
    rw [runFile_no_raise cands h, List.length_map]
  · intro files1 files2
    simp [runAll]
  · exact runFile_raise_drops

/-- C1 amended witness: a file of one well-behaved candidate produces
its one record, and a raising candidate placed after it drops only what
follows in its own file. -/
theorem c1_batch_resilience_witness :
    runFile [candOk] = [candOk].map recordOf ∧
    runFile ([candOk] ++ candRaise :: [candOk]) = [candOk].map recordOf := by
  refine ⟨(c1_batch_resilience_amended.1 [candOk] ?_).1,
    c1_batch_resilience_amended.2.2 [candOk] candRaise [candOk] ?_ ?_⟩
  · decide
  · decide
  · decide

/-- C2 counterexample: for the candidate name `pwn$(id)` the
`find_all_context` search command is NOT an argument list with the name
as one inert argument: both backends run one interpolated string
through the shell, `list2cmdline` leaves the name completely unquoted
(no space or tab in it), and the resulting command contains an active
POSIX command substitution — the name alters the command's structure.
The executed argv is `/bin/sh -c <command>`, of which the name is not
an element. -/
theorem c2_literal_and_injection_counterexample :
    (find_all_context_search "pwn$(id)" "/src" true).shell = true ∧
    hasActiveCmdSubst (find_all_context_search "pwn$(id)" "/src" true).command = true ∧
    "pwn$(id)" ∉ ["/bin/sh", "-c", (find_all_context_search "pwn$(id)" "/src" true).command] ∧
    hasActiveCmdSubst (find_all_context_search "pwn$(id)" "/src" false).command = true := by
  decide

/-- C2 amended: the MATCH is literal — `find_all_context` requests
fixed-string mode, so the rg flag word is `-niF` and the grep flags are
`-rniF` — but in `LLM_Triager.run_search` the command is not built
structurally: for every candidate name both backends execute one shell
string (`shell=True`) into which the name is interpolated — the ripgrep
branch as the `list2cmdline` rendering of the name, the grep branch as
the raw name spliced between double quotes.  Only `Triager.run_ripgrep`
passes the name as a single argv element, alongside `-F`, without a
shell. -/
theorem c2_literal_and_injection_amended (pattern search_dir : String)
    (file_types : List String) (max_results : Nat) :
    (find_all_context_search pattern search_dir true).shell = true ∧
    (find_all_context_search pattern search_dir true).command
      = "rg -niF --no-heading --no-ignore -g !llm_analysis_report.csv -g !.potential "
        ++ (quoteArg pattern ++ " " ++ quoteArg search_dir) ∧
    (find_all_context_search pattern search_dir false).shell = true ∧
    (find_all_context_search pattern search_dir false).command
      = "grep -rniF \"" ++ pattern ++ "\" \"" ++ search_dir
        ++ "\" | grep -vE \"(llm_analysis_report.csv|\\.potential)\"" ∧
    "-F" ∈ run_ripgrep_cmd pattern file_types max_results search_dir ∧
    pattern ∈ run_ripgrep_cmd pattern file_types max_results search_dir := by
  refine ⟨rfl, ?_, rfl, ?_, ?_, ?_⟩
  · rfl
  · rfl
  · simp [run_ripgrep_cmd]
  · simp [run_ripgrep_cmd]

/-- C3 counterexample: an HTTP 200 reply whose message content does not
parse as JSON makes `LLM_Triager.analyze_with_llm` RAISE the decode
error out of the classify operation on the very first attempt — no
fallback parse, no retry — contradicting the claim that such an attempt
never raises past classify and is retried as transient. -/
theorem c3_parse_failure_counterexample :
    analyze_with_llm apiBadParse "npm" = (.raised, [.call]) := rfl

/-- C3 amended: in `LLM_Triager.analyze_with_llm` a 200-status reply
with unparseable message content raises out of the classify operation
at once (caught only by `main`'s per-file handler); in
`Triager.analyze_with_llm` the decode error is caught, one fallback
extracts the embedded brace block and parses it, and if that too fails
the single attempt returns `None` — there is no retry in either path. -/
theorem c3_parse_failure_amended :
    (∀ (api : Nat → ApiResponse) (ptype : String), api 0 = .resp 200 none →
      analyze_with_llm api ptype = (.raised, [.call])) ∧
    (∀ (parse : String → Option Row) (text : String) (a : Row),
      parse text = some a → triager_analyze parse text = some (a, false)) ∧
    (∀ (parse : String → Option Row) (text b : String) (a : Row),
      parse text = none → braceBlock text = some b → parse b = some a →
      triager_analyze parse text = some (a, true)) ∧
    (∀ (parse : String → Option Row) (text b : String),
      parse text = none → braceBlock text = some b → parse b = none →
      triager_analyze parse text = none) ∧
    (∀ (parse : String → Option Row) (text : String),
      parse text = none → braceBlock text = none →
      triager_analyze parse text = none) := by
  refine ⟨?_, ?_, ?_, ?_, ?_⟩
  · intro api ptype h
    exact analyzeLoop_badparse api ptype 0 [1, 2] h
  · intro parse text a h
    simp [triager_analyze, h]
  · intro parse text b a h1 h2 h3
    simp [triager_analyze, h1, h2, h3]
  · intro parse text b h1 h2 h3
    simp [triager_analyze, h1, h2, h3]
  · intro parse text h1 h2
    simp [triager_analyze, h1, h2]

/-- C3 amended witness: a concrete parse failure whose fallback brace
block parses, and a concrete 200-with-bad-content raise. -/
theorem c3_parse_failure_witness :
    triager_analyze parseC3 textC3 = some (rowC3, true) ∧
    analyze_with_llm apiBadParse "pip" = (.raised, [.call]) := by
  constructor
  · exact c3_parse_failure_amended.2.2.1 parseC3 textC3 blockC3 rowC3
      (by decide) (by decide) (by decide)
  · exact c3_parse_failure_amended.1 apiBadParse "pip" rfl

/-- C4: the classification call makes at most 3 attempts per candidate;
each transient failure (request exception, or a status that is neither
200 nor 4xx, e.g. 5xx) on attempt `i` is followed by
`time.sleep(2 ** i)` — 1 s, 2 s, 4 s — before the next attempt; a
success on attempt K returns at once with no further network calls; a
4xx status returns at once with no retry and no sleep. -/
theorem c4_retry_policy (api : Nat → ApiResponse) (ptype : String) :
    callCount (analyze_with_llm api ptype).2 ≤ 3 ∧
    (∀ a, api 0 = .resp 200 (some a) →
      analyze_with_llm api ptype = (.success (setPT a ptype), [.call])) ∧
    (∀ a, isTransient (api 0) = true → api 1 = .resp 200 (some a) →
      analyze_with_llm api ptype = (.success (setPT a ptype), [.call, .sleep 1, .call])) ∧
    (∀ a, isTransient (api 0) = true → isTransient (api 1) = true →
        api 2 = .resp 200 (some a) →
      analyze_with_llm api ptype
        = (.success (setPT a ptype), [.call, .sleep 1, .call, .sleep 2, .call])) ∧
    (∀ code parsed, api 0 = .resp code parsed → 400 ≤ code → code < 500 →
      analyze_with_llm api ptype = (.clientError, [.call])) ∧
    (∀ code parsed, isTransient (api 0) = true → api 1 = .resp code parsed →
        400 ≤ code → code < 500 →
      analyze_with_llm api ptype = (.clientError, [.call, .sleep 1, .call])) ∧
    (isTransient (api 0) = true → isTransient (api 1) = true →
        isTransient (api 2) = true →
      analyze_with_llm api ptype
        = (.exhausted, [.call, .sleep 1, .call, .sleep 2, .call, .sleep 4])) := by
  refine ⟨callCount_analyzeLoop_le api ptype [0, 1, 2], ?_, ?_, ?_, ?_, ?_, ?_⟩
  · intro a h
    exact analyzeLoop_success api ptype 0 [1, 2] a h
  · intro a h0 h1
    show analyzeLoop api ptype [0, 1, 2] = _
    rw [analyzeLoop_transient api ptype 0 [1, 2] h0,
        analyzeLoop_success api ptype 1 [2] a h1]
    rfl
  · intro a h0 h1 h2
    show analyzeLoop api ptype [0, 1, 2] = _
    rw [analyzeLoop_transient api ptype 0 [1, 2] h0,
        analyzeLoop_transient api ptype 1 [2] h1,
        analyzeLoop_success api ptype 2 [] a h2]
    rfl
  · intro code parsed h h4a h4b
    exact analyzeLoop_clientError api ptype 0 [1, 2] code parsed h h4a h4b
  · intro code parsed h0 h1 h4a h4b
    show analyzeLoop api ptype [0, 1, 2] = _
    rw [analyzeLoop_transient api ptype 0 [1, 2] h0,
        analyzeLoop_clientError api ptype 1 [2] code parsed h1 h4a h4b]
    rfl
  · intro h0 h1 h2
    show analyzeLoop api ptype [0, 1, 2] = _
    rw [analyzeLoop_transient api ptype 0 [1, 2] h0,
        analyzeLoop_transient api ptype 1 [2] h1,
        analyzeLoop_transient api ptype 2 [] h2]
    rfl

/-- C4 witness: a request exception on attempt 0 followed by a parsed
200 on attempt 1 gives a success after one 1-second backoff and exactly
two calls. -/
theorem c4_retry_policy_witness :
    analyze_with_llm apiW "npm" = (.success (setPT rowOkC4 "npm"), [.call, .sleep 1, .call]) ∧
    callCount (analyze_with_llm apiW "npm").2 ≤ 3 :=
  ⟨(c4_retry_policy apiW "npm").2.2.1 rowOkC4 rfl rfl, (c4_retry_policy apiW "npm").1⟩

/-- C5: when the classification attempts for a candidate are exhausted
without a result, `main` appends a record preserving the candidate's
original name and ecosystem, with classification `'Analysis Failed'`,
the fixed justification, and `highest_risk_context = 'N/A'`, and then
continues with the remaining candidates. -/
theorem c5_exhaustion_failed_record (name ptype : String) (api : Nat → ApiResponse)
    (rest : List Cand)
    (h : (analyze_with_llm api ptype).1 = .exhausted) :
    runFile (⟨name, ptype, api⟩ :: rest) = failedRecord name ptype :: runFile rest ∧
    (failedRecord name ptype).package_name = name ∧
    (failedRecord name ptype).package_type = ptype ∧
    (failedRecord name ptype).classification = "Analysis Failed" ∧
    (failedRecord name ptype).justification = "API call failed after retries." ∧
    (failedRecord name ptype).highest_risk_context = "N/A" := by
  refine ⟨?_, rfl, rfl, rfl, rfl, rfl⟩
  simp [runFile, outcomeOf, h]

/-- C5 witness: a candidate whose three attempts all return HTTP 500 is
recorded as the sentinel failure record, and the next candidate is
still processed. -/
theorem c5_exhaustion_failed_record_witness :
    runFile [⟨"lodash-internal", "npm", api5xx⟩, candOk]
      = failedRecord "lodash-internal" "npm" :: runFile [candOk] ∧
    (failedRecord "lodash-internal" "npm").package_name = "lodash-internal" := by
  have h := c5_exhaustion_failed_record "lodash-internal" "npm" api5xx [candOk] (by decide)
  exact ⟨h.1, h.2.1⟩

/-- C6: for every raw search-output line the regex parser accepts,
rejoining the three captured groups as `file:line:content` exactly
reconstructs the original raw line (content after the second colon is
kept verbatim, colons included), and every nonblank line the parser
rejects is turned into a parse warning by `find_all_context` — a total
step, never a crash. -/
theorem c6_parser_roundtrip (relpath : String → String) (line : String) :
    (∀ f d c, parseLine line = some (f, d, c) → f ++ ":" ++ d ++ ":" ++ c = line) ∧
    (parseLine line = none → pyStrip line ≠ "" → processLine relpath line = .warn) := by
  constructor
  · intro f d c h
    unfold parseLine at h
    split at h
    case _ fl dl cl hl =>
      injection h with h
      injection h with hf h
      injection h with hd hc
      subst hf; subst hd; subst hc
      have lhs_eq : String.mk fl ++ ":" ++ String.mk dl ++ ":" ++ String.mk cl
          = String.mk ((((fl ++ [':']) ++ dl) ++ [':']) ++ cl) := rfl
      rw [lhs_eq]
      have hassoc : (((fl ++ [':']) ++ dl) ++ [':']) ++ cl = line.toList := by
        simpa [List.append_assoc] using parseLineL_recon line.toList fl dl cl hl
      rw [hassoc]
      exact string_mk_toList line
    · exact absurd h (by simp)
  · intro h1 h2
    unfold processLine
    rw [if_neg h2, h1]

/-- C6 witness: a concrete accepted line (content containing a colon
and leading whitespace) reconstructs exactly, and a concrete rejected
nonblank line yields a warning. -/
theorem c6_parser_roundtrip_witness :
    parseLine "src/a.py:12:x: y" = some ("src/a.py", "12", "x: y") ∧
    "src/a.py" ++ ":" ++ "12" ++ ":" ++ "x: y" = "src/a.py:12:x: y" ∧
    parseLine "no colon-digit shape" = none ∧
    processLine id "no colon-digit shape" = .warn := by
  refine ⟨by decide, ?_, by decide, ?_⟩
  · exact (c6_parser_roundtrip id "src/a.py:12:x: y").1 "src/a.py" "12" "x: y" (by decide)
  · exact (c6_parser_roundtrip id "no colon-digit shape").2 (by decide) (by decide)

/-- C7 counterexample: the claim says every distinct trimmed content is
emitted exactly once, but `unique_lines` keeps only the first 15
distinct trimmed contents.  With 17 evidence lines whose trimmed
contents repeat (trimmed `"a0"` occurs twice) and span 16 distinct
values, the 16th distinct value `"a15"` is never emitted. -/
theorem c7_dedup_counterexample :
    (exC7.map pyStrip).count "a0" = 2 ∧
    "a15" ∈ exC7.map pyStrip ∧
    "a15" ∉ unique_lines exC7 ∧
    (unique_lines exC7).length = 15 := by decide

/-- C7 amended: `unique_lines` emits each distinct trimmed content at
most once — it equals the first-occurrence deduplication of the trimmed
contents cut to the first 15 entries; its output has no duplicates; and
whenever there are at most 15 distinct trimmed contents it is exactly
the first-occurrence deduplication (each distinct trimmed content once,
in first-seen order, regardless of source file or line). -/
theorem c7_dedup_amended (evidence_lines : List String) :
    unique_lines evidence_lines
      = (eraseFirstDups (evidence_lines.map pyStrip)).take 15 ∧
    (unique_lines evidence_lines).Nodup ∧
    ((firstSeen (evidence_lines.map pyStrip) []).length ≤ 15 →
      unique_lines evidence_lines = eraseFirstDups (evidence_lines.map pyStrip)) := by
  have h0 : firstSeen (evidence_lines.map pyStrip) []
      = eraseFirstDups (evidence_lines.map pyStrip) := by
    rw [firstSeen_eq_eraseFirstDups]
    congr 1
    rw [show (fun (y : String) => !(memB y [])) = (fun _ => true) from rfl]
    exact List.filter_true _
  refine ⟨?_, ?_, ?_⟩
  · rw [unique_lines, h0]
  · rw [unique_lines, h0]
    exact (List.take_sublist 15 _).nodup (eraseFirstDups_nodup _ _ le_rfl)
  · intro hlen
    rw [unique_lines, h0]
    exact List.take_of_length_le (h0 ▸ hlen)

/-- C7 amended witness: on a concrete list with fewer than 15 distinct
trimmed contents, `unique_lines` is exactly the first-occurrence
deduplication of the trimmed contents. -/
theorem c7_dedup_amended_witness :
    unique_lines ["b", "b ", "c"] = eraseFirstDups (["b", "b ", "c"].map pyStrip) :=
  (c7_dedup_amended ["b", "b ", "c"]).2.2 (by decide)

/-- C8 (code bug): the ripgrep glob `-g '!.potential'` matches only
files NAMED exactly `.potential`, so the raw candidate-list file
`proj/DEP/npm.potential` is not excluded by the ripgrep backend and its
line is returned as evidence — while the report CSV is excluded, a file
named exactly `.potential` would be excluded, and the grep backend does
filter both bookkeeping files.  The claimed exclusion fails on the
ripgrep backend. -/
theorem c8_exclusion_code_bug :
    rgExcluded "proj/DEP/npm.potential" = false ∧
    rgBackendLines exTree "acme-pkg"
      = ["proj/DEP/npm.potential:1:acme-pkg", "proj/src/app.js:1:import acme-pkg"] ∧
    rgExcluded "proj/llm_analysis_report.csv" = true ∧
    rgExcluded "DEP/.potential" = true ∧
    grepBackendLines exTree "acme-pkg" = ["proj/src/app.js:1:import acme-pkg"] := by
  decide

/-- C9: every evidence snippet content longer than 300 code points is
truncated to exactly the first 300 code points with the marker `"..."`
appended (total length 303), and content of length at most 300 is kept
unchanged — over-long content is never dropped in full. -/
theorem c9_truncation (cs : List Char) :
    (cs.length ≤ 300 ∧ truncate300 cs = cs) ∨
    (300 < cs.length ∧ truncate300 cs = cs.take 300 ++ "...".toList ∧
      (cs.take 300).length = 300 ∧ (truncate300 cs).length = 303) := by
  by_cases h : 300 < cs.length
  · right
    have ht : (cs.take 300).length = 300 := by
      rw [List.length_take]; omega
    refine ⟨h, ?_, ht, ?_⟩
    · simp only [truncate300]
      rw [if_pos h]
    · simp only [truncate300]
      rw [if_pos h]
      simp [ht]
  · left
    refine ⟨by omega, ?_⟩
    simp only [truncate300]
    rw [if_neg h]

/-- C10: in `print_summary`, the total-analyzed count is the number of
report rows; the three buckets count only rows whose classification is
exactly one of the three labels, so the bucket sum is at most the total
and equals it exactly when every row carries one of the three labels; a
row with any other label (e.g. `"Banana"`) is counted in the total but
in no bucket. -/
theorem c10_summary_buckets :
    (∀ rows : List Row,
      (summaryCounts rows).1 = rows.length ∧
      (summaryCounts rows).2.1 + (summaryCounts rows).2.2.1 + (summaryCounts rows).2.2.2
        ≤ rows.length ∧
      ((summaryCounts rows).2.1 + (summaryCounts rows).2.2.1 + (summaryCounts rows).2.2.2
          = rows.length ↔
        ∀ r ∈ rows,
          r.classification = "Potential Vulnerability" ∨
          r.classification = "False Positive" ∨
          r.classification = "Analysis Failed")) ∧
    summaryCounts [⟨"p", "npm", "Banana", "j", "N/A"⟩] = (1, 0, 0, 0) := by
  refine ⟨fun rows => ⟨rfl, ?_, ?_⟩, by decide⟩
  · rw [bucketSum_eq_countP]
    exact List.countP_le_length inBucket
  · rw [bucketSum_eq_countP]
    rw [List.countP_eq_length]
    constructor
    · intro h r hr
      have := h r hr
      simpa [inBucket, or_assoc] using this
    · intro h r hr
      have := h r hr
      simpa [inBucket, or_assoc] using this

/-- C10 witness: on a one-row report whose classification is one of the
three labels, the bucket sum equals the total. -/
theorem c10_summary_buckets_witness :
    (summaryCounts [⟨"p", "npm", "Potential Vulnerability", "j", "e"⟩]).2.1
      + (summaryCounts [⟨"p", "npm", "Potential Vulnerability", "j", "e"⟩]).2.2.1
      + (summaryCounts [⟨"p", "npm", "Potential Vulnerability", "j", "e"⟩]).2.2.2
      = ([⟨"p", "npm", "Potential Vulnerability", "j", "e"⟩] : List Row).length :=
  ((c10_summary_buckets.1 [⟨"p", "npm", "Potential Vulnerability", "j", "e"⟩]).2.2).mpr
    (by decide)
